import Mathlib

/-
  Verification development for the index-management reconciliation engine of
  the elasticsearch-operator repository (internal/indexmanagement/reconcile.go).

  The Go code is shallowly embedded: Kubernetes objects become Lean structures
  carrying exactly the fields the reconciler reads or writes, the remote object
  store becomes an explicit `Store` state threaded through the operations, and
  Go panics (out-of-bounds indexing) are modelled by `Option`.
-/

namespace IndexManagement

/-! ## Data model: the fields of the Kubernetes objects the reconciler touches -/

/-- One environment variable of a container (corev1.EnvVar). -/
structure EnvVar where
  name : String
  value : String
deriving DecidableEq, Repr

/-- A pod toleration (corev1.Toleration), with the fields relevant to equality. -/
structure Toleration where
  key : String
  operator : String
  value : String
  effect : String
deriving DecidableEq, Repr

/-- Requested resource quantities (corev1.ResourceList restricted to cpu/memory). -/
structure ResourceList where
  cpu : String
  memory : String
deriving DecidableEq, Repr

/-- corev1.ResourceRequirements: the reconciler only populates requests. -/
structure ResourceRequirements where
  requests : ResourceList
deriving DecidableEq, Repr

/-- corev1.Container restricted to the fields areCronJobsSame compares. -/
structure Container where
  name : String
  image : String
  command : List String
  args : List String
  resources : ResourceRequirements
  env : List EnvVar
deriving DecidableEq, Repr

/-- metav1.ObjectMeta restricted to name, namespace and labels. -/
structure ObjectMeta where
  name : String
  ns : String
  labels : List (String × String)
deriving DecidableEq, Repr

/-- corev1.PodSpec restricted to the compared fields. -/
structure PodSpec where
  containers : List Container
  nodeSelector : List (String × String)
  tolerations : List Toleration
deriving DecidableEq, Repr

/-- batchv1.JobSpec (the JobTemplateSpec's Spec), with Template collapsed to
its PodSpec. -/
structure JobSpec where
  backoffLimit : Option Int
  parallelism : Option Int
  template : PodSpec
deriving DecidableEq, Repr

/-- batch/v1beta1 CronJobSpec with the fields set by newCronJob. -/
structure CronJobSpec where
  concurrencyPolicy : String
  successfulJobsHistoryLimit : Option Int
  failedJobsHistoryLimit : Option Int
  schedule : String
  suspend : Option Bool
  jobTemplate : JobSpec
deriving DecidableEq, Repr

/-- batch/v1beta1 CronJob: metadata plus spec. -/
structure CronJob where
  meta : ObjectMeta
  spec : CronJobSpec
deriving DecidableEq, Repr

/-- Shorthand for lhs.Spec.JobTemplate.Spec.Template.Spec.Containers. -/
def CronJob.containers (c : CronJob) : List Container :=
  c.spec.jobTemplate.template.containers

/-- Shorthand for the pod spec's node selector. -/
def CronJob.nodeSelector (c : CronJob) : List (String × String) :=
  c.spec.jobTemplate.template.nodeSelector

/-- Shorthand for the pod spec's tolerations. -/
def CronJob.tolerations (c : CronJob) : List Toleration :=
  c.spec.jobTemplate.template.tolerations

/-- Assignment lhs.Spec.Schedule = s, leaving every other field unchanged. -/
def CronJob.setSchedule (c : CronJob) (s : String) : CronJob :=
  { c with spec := { c.spec with schedule := s } }

/-- corev1.ConfigMap restricted to metadata and data. -/
structure ConfigMap where
  meta : ObjectMeta
  data : List (String × String)
deriving DecidableEq, Repr

/-! ## Constants from reconcile.go -/

/-- Constant indexManagementConfigmap = "indexmanagement-scripts". -/
def indexManagementConfigmap : String := "indexmanagement-scripts"

/-- Constant defaultShardSize = int32(40). -/
def defaultShardSize : Int := 40

/-- millisPerSecond = uint64(1000). -/
def millisPerSecond : Nat := 1000

/-- millisPerMinute = uint64(60 * millisPerSecond). -/
def millisPerMinute : Nat := 60 * millisPerSecond

/-- millisPerHour = uint64(millisPerMinute * 60). -/
def millisPerHour : Nat := millisPerMinute * 60

/-- millisPerDay = uint64(millisPerHour * 24). -/
def millisPerDay : Nat := millisPerHour * 24

/-- millisPerWeek = uint64(millisPerDay * 7). -/
def millisPerWeek : Nat := millisPerDay * 7

/-- The fixed provider/component/logging-infra label triple imLabels. -/
def imLabels : List (String × String) :=
  [("provider", "openshift"),
   ("component", "indexManagement"),
   ("logging-infra", "indexManagement")]

/-! ## Comparators

The comparators package is not under src/; the predicates below are modelled
from the spec's enumerated equality contract (spec section 4.3). -/

/-- Modelled from the spec: AreStringMapsSame is node-selector map equality —
the two association lists agree as finite maps (every binding of each side is
the binding the other side's lookup returns). -/
def AreStringMapsSame (l r : List (String × String)) : Bool :=
  decide ((∀ kv ∈ l, r.lookup kv.1 = some kv.2) ∧ (∀ kv ∈ r, l.lookup kv.1 = some kv.2))

/-- Modelled from the spec: AreTolerationsSame is toleration-list equality with
order-insensitive set semantics (mutual containment). -/
def AreTolerationsSame (l r : List Toleration) : Bool :=
  decide ((∀ t ∈ l, t ∈ r) ∧ (∀ t ∈ r, t ∈ l))

/-- Modelled from the spec: AreResourceRequementsSame is resource-request
equality (the source's misspelt name is kept). -/
def AreResourceRequementsSame (l r : ResourceRequirements) : Bool :=
  decide (l = r)

/-- Modelled from the spec: EnvValueEqual is container-environment equality. -/
def EnvValueEqual (l r : List EnvVar) : Bool :=
  decide (l = r)

/-! ## areCronJobsSame -/

/-- The per-container field comparison of areCronJobsSame's loop body:
name, image, command, args, resource requests and environment. -/
def containerSame (c o : Container) : Bool :=
  decide (c.name = o.name) && decide (c.image = o.image) &&
  decide (c.command = o.command) && decide (c.args = o.args) &&
  AreResourceRequementsSame c.resources o.resources &&
  EnvValueEqual c.env o.env

/-- The loop `for i, container := range lhs.containers` with the unchecked
index access `rhs.containers[i]`: `none` models the Go panic when the index
is out of bounds on the rhs list. -/
def compareContainers : List Container → List Container → Option Bool
  | [], _ => some true
  | _ :: _, [] => none
  | c :: ls, o :: rs => if containerSame c o then compareContainers ls rs else some false

/-- The Go guard `lhs.Spec.Suspend != nil && rhs.Spec.Suspend != nil &&
*lhs.Spec.Suspend != *rhs.Spec.Suspend`. -/
def suspendDiffers (lhs rhs : CronJob) : Bool :=
  match lhs.spec.suspend, rhs.spec.suspend with
  | some a, some b => decide (a ≠ b)
  | _, _ => false

/-- areCronJobsSame, translated line by line from reconcile.go:234-279. The
first guard compares the lhs container count to itself, exactly as the source
does. The returned CronJob is the (possibly schedule-mutated) lhs, since the
schedule branch assigns `lhs.Spec.Schedule = rhs.Spec.Schedule` before
returning false. `none` models the out-of-bounds panic of the container loop. -/
def areCronJobsSame (lhs rhs : CronJob) : Option (Bool × CronJob) :=
  if lhs.containers.length ≠ lhs.containers.length then
    some (false, lhs)
  else if !(AreStringMapsSame lhs.nodeSelector rhs.nodeSelector) then
    some (false, lhs)
  else if !(AreTolerationsSame lhs.tolerations rhs.tolerations) then
    some (false, lhs)
  else if lhs.spec.schedule ≠ rhs.spec.schedule then
    some (false, lhs.setSchedule rhs.spec.schedule)
  else if suspendDiffers lhs rhs then
    some (false, lhs)
  else
    (compareContainers lhs.containers rhs.containers).map (fun same => (same, lhs))

/-! ## Policy model

The apis/logging/v1 types are not under src/; they are modelled from the
spec's data-model section (poll interval, optional Hot phase with max age /
max docs / max size, optional Delete phase with min age). -/

/-- Modelled from the spec: the Hot phase's rollover conditions — max age,
max document count and max size, each independently optional. -/
structure HotPhase where
  maxAge : Option String
  maxDocs : Option Int
  maxSize : Option String
deriving DecidableEq, Repr

/-- Modelled from the spec: the Delete phase carries a min age. -/
structure DeletePhase where
  minAge : String
deriving DecidableEq, Repr

/-- Modelled from the spec: the two optional lifecycle phases of a policy. -/
structure Phases where
  hot : Option HotPhase
  delete : Option DeletePhase
deriving DecidableEq, Repr

/-- Modelled from the spec: IndexManagementPolicySpec — poll interval plus
phases. -/
structure IndexManagementPolicySpec where
  pollInterval : String
  phases : Phases
deriving DecidableEq, Repr

/-- Modelled from the spec: IndexManagementPolicyMappingSpec — a name bound to
a policy reference. -/
structure IndexManagementPolicyMappingSpec where
  name : String
  policyRef : String
deriving DecidableEq, Repr

/-- apis.PolicyMap: a map from policy name to policy, as an association list. -/
def PolicyMap : Type := List (String × IndexManagementPolicySpec)

/-- The Go zero value of IndexManagementPolicySpec: empty poll interval, both
phase pointers nil. Looking up a missing key in a Go map yields this value. -/
def zeroPolicy : IndexManagementPolicySpec :=
  { pollInterval := "", phases := { hot := none, delete := none } }

/-- Go map indexing `policies[ref]`: the stored policy, or the zero value when
the key is absent. -/
def PolicyMap.lookupOrZero (policies : PolicyMap) (ref : String) : IndexManagementPolicySpec :=
  ((policies : List (String × IndexManagementPolicySpec)).lookup ref).getD zeroPolicy

/-- The cluster identity fields RemoveCronJobsForMappings and the reconcilers
read: name and namespace. -/
structure Elasticsearch where
  name : String
  ns : String
deriving DecidableEq, Repr

/-! ## The remote object store

The store (spec section 6) is an external collaborator; it is modelled as a
deterministic versioned map plus fault-injection fields so that the error
classifications (already exists / not found / other) the source branches on
can all arise. -/

/-- The error classification the source distinguishes via apierrors. -/
inductive StoreErr where
  | alreadyExists
  | notFound
  | conflict
  | other (msg : String)
deriving DecidableEq, Repr

/-- A stored cron job together with its resource version. -/
structure StoredJob where
  resourceVersion : Nat
  job : CronJob
deriving DecidableEq, Repr

/-- A stored config map together with its resource version. -/
structure StoredConfigMap where
  resourceVersion : Nat
  cm : ConfigMap
deriving DecidableEq, Repr

/-- The remote object store: versioned cron jobs and config maps, plus
injectable faults for the create, list and delete round trips. -/
structure Store where
  jobs : List StoredJob
  configmaps : List StoredConfigMap
  nextVersion : Nat
  createFault : Option StoreErr
  listFault : Option StoreErr
  deleteFaults : List (String × StoreErr)
deriving DecidableEq, Repr

/-- Find the stored cron job with the given name and namespace. -/
def Store.findJob (s : Store) (name ns : String) : Option StoredJob :=
  s.jobs.find? (fun sj => decide (sj.job.meta.name = name ∧ sj.job.meta.ns = ns))

/-- Create: fails with the injected fault if any, with alreadyExists if an
object with the same name and namespace is present, and otherwise appends the
object under a fresh resource version. -/
def Store.createJob (s : Store) (j : CronJob) : Except StoreErr Store :=
  match s.createFault with
  | some e => .error e
  | none =>
    if (s.findJob j.meta.name j.meta.ns).isSome then .error .alreadyExists
    else .ok { s with jobs := s.jobs ++ [⟨s.nextVersion, j⟩], nextVersion := s.nextVersion + 1 }

/-- Get: the stored object, or notFound. -/
def Store.getJob (s : Store) (name ns : String) : Except StoreErr StoredJob :=
  match s.findJob name ns with
  | some sj => .ok sj
  | none => .error .notFound

/-- Update: replaces the stored object with the given one under a fresh
resource version; notFound when absent. -/
def Store.updateJob (s : Store) (j : CronJob) : Except StoreErr Store :=
  if (s.findJob j.meta.name j.meta.ns).isSome then
    .ok { s with
          jobs := s.jobs.map (fun sj =>
            if decide (sj.job.meta.name = j.meta.name ∧ sj.job.meta.ns = j.meta.ns) then
              ⟨s.nextVersion, j⟩
            else sj),
          nextVersion := s.nextVersion + 1 }
  else .error .notFound

/-- Delete: fails with the fault injected for the name if any; otherwise
removes the stored object, or fails with notFound when absent. -/
def Store.deleteJob (s : Store) (name ns : String) : Except StoreErr Store :=
  match s.deleteFaults.lookup name with
  | some e => .error e
  | none =>
    if (s.findJob name ns).isSome then
      .ok { s with jobs := s.jobs.filter (fun sj =>
              !(decide (sj.job.meta.name = name ∧ sj.job.meta.ns = ns))) }
    else .error .notFound

/-- List: the cron jobs of the namespace whose labels include every selector
label (client.InNamespace plus client.MatchingLabels). -/
def Store.listJobs (s : Store) (ns : String) (labels : List (String × String)) : List CronJob :=
  (s.jobs.filter (fun sj =>
      decide (sj.job.meta.ns = ns) &&
      labels.all (fun kv => decide (sj.job.meta.labels.lookup kv.1 = some kv.2)))).map
    (fun sj => sj.job)

/-- Find the stored config map with the given name and namespace. -/
def Store.findCM (s : Store) (name ns : String) : Option StoredConfigMap :=
  s.configmaps.find? (fun sc => decide (sc.cm.meta.name = name ∧ sc.cm.meta.ns = ns))

/-- Create for config maps, mirroring Store.createJob. -/
def Store.createCM (s : Store) (c : ConfigMap) : Except StoreErr Store :=
  match s.createFault with
  | some e => .error e
  | none =>
    if (s.findCM c.meta.name c.meta.ns).isSome then .error .alreadyExists
    else .ok { s with configmaps := s.configmaps ++ [⟨s.nextVersion, c⟩], nextVersion := s.nextVersion + 1 }

/-- Get for config maps, mirroring Store.getJob. -/
def Store.getCM (s : Store) (name ns : String) : Except StoreErr StoredConfigMap :=
  match s.findCM name ns with
  | some sc => .ok sc
  | none => .error .notFound

/-- Update for config maps, mirroring Store.updateJob. -/
def Store.updateCM (s : Store) (c : ConfigMap) : Except StoreErr Store :=
  if (s.findCM c.meta.name c.meta.ns).isSome then
    .ok { s with
          configmaps := s.configmaps.map (fun sc =>
            if decide (sc.cm.meta.name = c.meta.name ∧ sc.cm.meta.ns = c.meta.ns) then
              ⟨s.nextVersion, c⟩
            else sc),
          nextVersion := s.nextVersion + 1 }
  else .error .notFound

/-! ## The converger (create-or-update protocol) -/

/-- One store round trip, recorded for the operation traces the theorems
count. -/
inductive Op where
  | create (name : String)
  | get (name : String)
  | update (name : String)
  | delete (name : String)
  | list
deriving DecidableEq, Repr

/-- Whether an operation is an Update call. -/
def Op.isUpdate : Op → Bool
  | .update _ => true
  | _ => false

/-- The number of Update calls in a trace. -/
def updateCount (t : List Op) : Nat := (t.filter Op.isUpdate).length

/-- retry.DefaultRetry performs five attempts. -/
def defaultRetrySteps : Nat := 5

/-- retry.RetryOnConflict for a body that can panic (`none`): runs the body,
retries only on a conflict error, and surfaces the last conflict when the
attempt budget is exhausted. -/
def retryOnConflictOpt :
    Nat → (Store → Option (Except StoreErr Unit × Store × List Op)) → Store →
    Option (Except StoreErr Unit × Store × List Op)
  | 0, _, s => some (.error .conflict, s, [])
  | n + 1, body, s =>
    match body s with
    | none => none
    | some (.error .conflict, s2, t) =>
      (retryOnConflictOpt n body s2).map (fun r => (r.1, r.2.1, t ++ r.2.2))
    | some (r, s2, t) => some (r, s2, t)

/-- retry.RetryOnConflict for a total body. -/
def retryOnConflict :
    Nat → (Store → Except StoreErr Unit × Store × List Op) → Store →
    Except StoreErr Unit × Store × List Op
  | 0, _, s => (.error .conflict, s, [])
  | n + 1, body, s =>
    match body s with
    | (.error .conflict, s2, t) =>
      let r := retryOnConflict n body s2
      (r.1, r.2.1, t ++ r.2.2)
    | (r, s2, t) => (r, s2, t)

/-- kverrors.Wrap: a nil error stays nil, any other error is wrapped with the
message. -/
def wrapErr (r : Except StoreErr Unit) (msg : String) : Except String Unit :=
  match r with
  | .ok _ => .ok ()
  | .error _ => .error msg

/-- The body of reconcileCronJob's RetryOnConflict closure: re-fetch the
current object, evaluate areCronJobsSame(current, desired) (whose schedule
branch mutates the fetched copy), and on "different" overwrite the fetched
object's Spec with the desired Spec and update. `none` propagates the
container-loop panic. -/
def cronUpdateBody (desired : CronJob) (s : Store) :
    Option (Except StoreErr Unit × Store × List Op) :=
  match s.getJob desired.meta.name desired.meta.ns with
  | .error e => some (.error e, s, [.get desired.meta.name])
  | .ok cur =>
    match areCronJobsSame cur.job desired with
    | none => none
    | some (true, _) => some (.ok (), s, [.get desired.meta.name])
    | some (false, mutated) =>
      let updated : CronJob := { mutated with spec := desired.spec }
      match s.updateJob updated with
      | .ok s2 => some (.ok (), s2, [.get desired.meta.name, .update desired.meta.name])
      | .error e => some (.error e, s, [.get desired.meta.name, .update desired.meta.name])

/-- reconcileCronJob (reconcile.go:207-232): create the desired object; on
success done; on a non-alreadyExists failure return the wrapped error; on
alreadyExists run the fetch-compare-update body under RetryOnConflict and wrap
its outcome. -/
def reconcileCronJob (s : Store) (desired : CronJob) :
    Option (Except String Unit × Store × List Op) :=
  match s.createJob desired with
  | .ok s2 => some (.ok (), s2, [.create desired.meta.name])
  | .error e =>
    if e ≠ .alreadyExists then
      some (.error "failed to create cronjob for cluster", s, [.create desired.meta.name])
    else
      (retryOnConflictOpt defaultRetrySteps (cronUpdateBody desired) s).map
        (fun r => (wrapErr r.1 "failed to update cronjob for cluster", r.2.1,
                   .create desired.meta.name :: r.2.2))

/-- Modelled from the spec: the script bundle content (scriptMap) is supplied
by the packaging layer and opaque to this core; a fixed placeholder map. -/
def scriptMap : List (String × String) :=
  [("rollover", "rollover-script-content"), ("delete", "delete-script-content")]

/-- k8s.NewConfigMap: a config map from name, namespace, labels and data. -/
def NewConfigMap (name ns : String) (labels : List (String × String))
    (data : List (String × String)) : ConfigMap :=
  { meta := { name := name, ns := ns, labels := labels }, data := data }

/-- The body of ReconcileCurationConfigmap's RetryOnConflict closure: re-fetch
the current config map; if its data differs from the desired data
(reflect.DeepEqual), replace the data and update. -/
def cmUpdateBody (desired : ConfigMap) (s : Store) :
    Except StoreErr Unit × Store × List Op :=
  match s.getCM desired.meta.name desired.meta.ns with
  | .error e => (.error e, s, [.get desired.meta.name])
  | .ok cur =>
    if desired.data ≠ cur.cm.data then
      let updated : ConfigMap := { cur.cm with data := desired.data }
      match s.updateCM updated with
      | .ok s2 => (.ok (), s2, [.get desired.meta.name, .update desired.meta.name])
      | .error e => (.error e, s, [.get desired.meta.name, .update desired.meta.name])
    else (.ok (), s, [.get desired.meta.name])

/-- The desired configuration object (reconcile.go:113-114): the fixed name,
the cluster namespace, the fixed labels and the script bundle. -/
def curationDesired (cluster : Elasticsearch) : ConfigMap :=
  NewConfigMap indexManagementConfigmap cluster.ns imLabels scriptMap

/-- ReconcileCurationConfigmap (reconcile.go:112-142): build the desired
config map from the fixed script bundle, create it; on success done; on a
non-alreadyExists failure return the wrapped error; on alreadyExists run the
fetch-compare-update body under RetryOnConflict and wrap its outcome. -/
def ReconcileCurationConfigmap (s : Store) (cluster : Elasticsearch) :
    Except String Unit × Store × List Op :=
  match s.createCM (curationDesired cluster) with
  | .ok s2 => (.ok (), s2, [.create indexManagementConfigmap])
  | .error e =>
    if e ≠ .alreadyExists then
      (.error "failed to create cluster configmap", s, [.create indexManagementConfigmap])
    else
      (wrapErr (retryOnConflict defaultRetrySteps (cmUpdateBody (curationDesired cluster)) s).1
         "failed to update configmap",
       (retryOnConflict defaultRetrySteps (cmUpdateBody (curationDesired cluster)) s).2.1,
       .create indexManagementConfigmap ::
         (retryOnConflict defaultRetrySteps (cmUpdateBody (curationDesired cluster)) s).2.2)

/-! ## The orphan collector -/

/-- sets.String.Insert for a list kept duplicate-free in insertion order. -/
def insertName (acc : List String) (n : String) : List String :=
  if acc.contains n then acc else acc ++ [n]

/-- One iteration of RemoveCronJobsForMappings' expected-set loop: look the
mapping's policy up (Go zero value when absent), and insert the rollover name
when the Hot phase is set and the delete name when the Delete phase is set. -/
def expectedStep (cluster : Elasticsearch) (policies : PolicyMap)
    (acc : List String) (mapping : IndexManagementPolicyMappingSpec) : List String :=
  let policy := policies.lookupOrZero mapping.policyRef
  let acc1 :=
    if policy.phases.hot.isSome then
      insertName acc (cluster.name ++ "-rollover-" ++ mapping.name)
    else acc
  if policy.phases.delete.isSome then
    insertName acc1 (cluster.name ++ "-delete-" ++ mapping.name)
  else acc1

/-- The expected-name set of RemoveCronJobsForMappings (reconcile.go:66-75). -/
def expectedNames (cluster : Elasticsearch)
    (mappings : List IndexManagementPolicyMappingSpec) (policies : PolicyMap) : List String :=
  mappings.foldl (expectedStep cluster policies) []

/-- The deletion loop of RemoveCronJobsForMappings (reconcile.go:93-108): every
orphan name is attempted; a notFound failure is ignored, any other failure is
logged (third component) and the loop continues. -/
def deleteOrphans (ns : String) : List String → Store → Store × List Op × List String
  | [], s => (s, [], [])
  | n :: rest, s =>
    match s.deleteJob n ns with
    | .ok s2 =>
      let r := deleteOrphans ns rest s2
      (r.1, .delete n :: r.2.1, r.2.2)
    | .error e =>
      let r := deleteOrphans ns rest s
      if e = .notFound then (r.1, .delete n :: r.2.1, r.2.2)
      else (r.1, .delete n :: r.2.1, n :: r.2.2)

/-- Whether the delete fault injected for a name is one the deletion loop
logs: any failure other than notFound. -/
def loggedFault (faults : List (String × StoreErr)) (n : String) : Bool :=
  match faults.lookup n with
  | some e => decide (e ≠ StoreErr.notFound)
  | none => false

/-- The existing-name set of RemoveCronJobsForMappings: the names of the
labelled cron jobs the List call returns for the namespace. -/
def existingNames (s : Store) (ns : String) : List String :=
  (s.listJobs ns imLabels).foldl (fun acc c => insertName acc c.meta.name) []

/-- The orphan set: existing minus expected. -/
def orphanNames (s : Store) (cluster : Elasticsearch)
    (mappings : List IndexManagementPolicyMappingSpec) (policies : PolicyMap) : List String :=
  (existingNames s cluster.ns).filter
    (fun n => !((expectedNames cluster mappings policies).contains n))

/-- RemoveCronJobsForMappings (reconcile.go:65-110): compute the expected
names, list the labelled cron jobs of the namespace (a list failure aborts
with a wrapped error), and delete the set difference existing − expected,
logging non-notFound delete failures and returning success. -/
def RemoveCronJobsForMappings (s : Store) (cluster : Elasticsearch)
    (mappings : List IndexManagementPolicyMappingSpec) (policies : PolicyMap) :
    Except String Unit × Store × List Op × List String :=
  match s.listFault with
  | some _ => (.error "failed to list cron jobs", s, [Op.list], [])
  | none =>
    (.ok (),
     (deleteOrphans cluster.ns (orphanNames s cluster mappings policies) s).1,
     Op.list :: (deleteOrphans cluster.ns (orphanNames s cluster mappings policies) s).2.1,
     (deleteOrphans cluster.ns (orphanNames s cluster mappings policies) s).2.2)

/-! ## Policy translator (spec-modelled: the function bodies are not under src/) -/

/-- The rolloverConditions struct (reconcile.go:59-63); the Go zero values
empty string / 0 model the omitempty-absent fields. -/
structure RolloverConditions where
  maxAge : String
  maxDocs : Int
  maxSize : String
deriving DecidableEq, Repr

/-- Modelled from the spec: the rolloverConditions construction
(calculateConditions' body is not under src/) — max age and max docs pass
through verbatim when set; max size defaults to defaultShardSize multiplied by
the primary-shard count (rendered with the "gb" unit) when the policy leaves
it unset. -/
def rolloverConditionsFor (hot : HotPhase) (primaryShards : Int) : RolloverConditions :=
  { maxAge := hot.maxAge.getD ""
    maxDocs := hot.maxDocs.getD 0
    maxSize :=
      match hot.maxSize with
      | some s => s
      | none => toString (defaultShardSize * primaryShards) ++ "gb" }

/-- The supported duration units: seconds, minutes, hours, days, weeks. -/
inductive TimeUnit where
  | s
  | m
  | h
  | d
  | w
deriving DecidableEq, Repr

/-- The fixed conversion factor of each unit, in milliseconds. -/
def TimeUnit.factor : TimeUnit → Nat
  | .s => millisPerSecond
  | .m => millisPerMinute
  | .h => millisPerHour
  | .d => millisPerDay
  | .w => millisPerWeek

/-- The suffix character of each unit. -/
def TimeUnit.char : TimeUnit → Char
  | .s => 's'
  | .m => 'm'
  | .h => 'h'
  | .d => 'd'
  | .w => 'w'

/-- The unit a suffix character denotes, if any. -/
def unitOfChar (c : Char) : Option TimeUnit :=
  if c = 's' then some .s
  else if c = 'm' then some .m
  else if c = 'h' then some .h
  else if c = 'd' then some .d
  else if c = 'w' then some .w
  else none

/-- Modelled from the spec: the character scan of calculateMillisForTimeUnit
(thresholdMillis; body not under src/). The pending magnitude is accumulated
digit by digit; a unit character multiplies it by the unit's factor and adds
it to the total; a unit with no pending digits, an unknown character, or
trailing digits with no unit fail. -/
def parseMillisChars : List Char → Option Nat → Nat → Except String Nat
  | [], none, acc => .ok acc
  | [], some _, _ => .error "invalid time unit"
  | c :: rest, cur, acc =>
    if c.isDigit then
      parseMillisChars rest (some ((cur.getD 0) * 10 + (c.toNat - 48))) acc
    else
      match unitOfChar c, cur with
      | some u, some n => parseMillisChars rest none (acc + n * u.factor)
      | some _, none => .error "invalid time unit"
      | none, _ => .error "invalid time unit"

/-- Modelled from the spec: calculateMillisForTimeUnit (thresholdMillis)
converts a human time-unit string into milliseconds. -/
def calculateMillisForTimeUnit (timeUnit : String) : Except String Nat :=
  parseMillisChars timeUnit.data none 0

/-- The numeric value of a decimal digit string (most significant first). -/
def digitsVal (ds : List Char) : Nat :=
  ds.foldl (fun a c => a * 10 + (c.toNat - 48)) 0

/-- A valid duration string assembled from (digit-run, unit) segments, e.g.
renderSegments of 1d12h's segments is the character list of "1d12h". -/
def renderSegments (segs : List (List Char × TimeUnit)) : List Char :=
  segs.foldr (fun p acc => p.1 ++ p.2.char :: acc) []

/-- The milliseconds a segment list denotes under the fixed unit factors. -/
def segmentsMillis (segs : List (List Char × TimeUnit)) : Nat :=
  segs.foldr (fun p a => digitsVal p.1 * p.2.factor + a) 0

/-! ## Concrete example objects used by witnesses and counterexamples -/

/-- A representative index-management container, as newCronJob builds it. -/
def exContainer : Container :=
  { name := "indexmanagement"
    image := "quay.io/openshift/elasticsearch:latest"
    command := ["bash"]
    args := ["-c", "/tmp/scripts/rollover"]
    resources := { requests := { cpu := "100m", memory := "32Mi" } }
    env := [{ name := "ES_SERVICE", value := "https://elasticsearch:9200" }] }

/-- A second container differing from exContainer in its name. -/
def exContainerB : Container :=
  { exContainer with name := "sidecar" }

/-- Representative metadata of a derived rollover cron job. -/
def exMeta : ObjectMeta :=
  { name := "elasticsearch-rollover-app", ns := "openshift-logging", labels := imLabels }

/-- A cron job with the given containers and otherwise fixed representative
fields. -/
def exCronJob (cs : List Container) : CronJob :=
  { meta := exMeta
    spec :=
      { concurrencyPolicy := "Forbid"
        successfulJobsHistoryLimit := some 1
        failedJobsHistoryLimit := some 1
        schedule := "*/15 * * * *"
        suspend := some false
        jobTemplate :=
          { backoffLimit := some 0
            parallelism := some 1
            template :=
              { containers := cs
                nodeSelector := [("kubernetes.io/os", "linux")]
                tolerations := [] } } } }

/-- The one-container example job. -/
def cronOne : CronJob := exCronJob [exContainer]

/-- The two-container example job, equal to cronOne up to the extra container. -/
def cronTwo : CronJob := exCronJob [exContainer, exContainerB]

/-- A representative cluster identity. -/
def exCluster : Elasticsearch := { name := "elasticsearch", ns := "openshift-logging" }

/-- The empty fault-free store. -/
def exStore0 : Store :=
  { jobs := [], configmaps := [], nextVersion := 0,
    createFault := none, listFault := none, deleteFaults := [] }

/-- A store already holding cronOne. -/
def exStore1 : Store := { exStore0 with jobs := [⟨0, cronOne⟩], nextVersion := 1 }

/-- A store whose create round trip fails with a non-alreadyExists error. -/
def exStoreFault : Store := { exStore0 with createFault := some (.other "boom") }

/-- A store already holding the curation config map of exCluster. -/
def exStoreCM : Store :=
  { exStore0 with configmaps := [⟨0, curationDesired exCluster⟩], nextVersion := 1 }

/-- A derived cron job with the given name, carrying the imLabels triple in
exCluster's namespace. -/
def exJobNamed (n : String) : CronJob :=
  { meta := { name := n, ns := "openshift-logging", labels := imLabels },
    spec := (exCronJob [exContainer]).spec }

/-- A policy with a Hot phase only. -/
def exPolicyHot : IndexManagementPolicySpec :=
  { pollInterval := "15m",
    phases := { hot := some { maxAge := some "7d", maxDocs := none, maxSize := none },
                delete := none } }

/-- The mapping X bound to the hot-only policy. -/
def exMappingX : IndexManagementPolicyMappingSpec := { name := "X", policyRef := "p1" }

/-- A mapping whose policy reference is not a key of the policy map. -/
def exMappingDangling : IndexManagementPolicyMappingSpec :=
  { name := "X", policyRef := "missing" }

/-- The policy map holding only the hot-only policy p1. -/
def exPoliciesHot : PolicyMap := [("p1", exPolicyHot)]

/-- The orphan-cleanup scenario store: derived jobs A-rollover-X, A-delete-X
and A-rollover-Y exist. -/
def exStoreGC : Store :=
  { exStore0 with
    jobs := [⟨0, exJobNamed "elasticsearch-rollover-X"⟩,
             ⟨1, exJobNamed "elasticsearch-delete-X"⟩,
             ⟨2, exJobNamed "elasticsearch-rollover-Y"⟩],
    nextVersion := 3 }

/-- The fault-injection cleanup store: the first orphan's delete fails with a
loggable error, the last one's with notFound. -/
def exStoreGCFault : Store :=
  { exStore0 with
    jobs := [⟨0, exJobNamed "elasticsearch-delete-X"⟩,
             ⟨1, exJobNamed "elasticsearch-rollover-X"⟩,
             ⟨2, exJobNamed "elasticsearch-rollover-Y"⟩],
    nextVersion := 3,
    deleteFaults := [("elasticsearch-delete-X", .other "boom"),
                     ("elasticsearch-rollover-Y", .notFound)] }

/-! ## Helper lemmas on the comparators -/

theorem lookup_self_of_nodupKeys :
    ∀ (l : List (String × String)), (l.map Prod.fst).Nodup →
      ∀ kv ∈ l, l.lookup kv.1 = some kv.2 := by
  intro l
  induction l with
  | nil => intro _ kv h; simp at h
  | cons p t ih =>
    intro hnd kv hmem
    obtain ⟨k, v⟩ := p
    simp only [List.map_cons, List.nodup_cons] at hnd
    rcases List.mem_cons.mp hmem with h | h
    · subst h
      simp [List.lookup]
    · have hne : kv.1 ≠ k := by
        intro he
        exact hnd.1 (he ▸ (List.mem_map.mpr ⟨kv, h, rfl⟩))
      have : (kv.1 == k) = false := beq_eq_false_iff_ne.mpr hne
      simp [List.lookup, this]
      exact ih hnd.2 kv h

theorem AreStringMapsSame_self (l : List (String × String))
    (h : (l.map Prod.fst).Nodup) : AreStringMapsSame l l = true := by
  unfold AreStringMapsSame
  simp only [decide_eq_true_eq]
  exact ⟨lookup_self_of_nodupKeys l h, lookup_self_of_nodupKeys l h⟩

theorem AreTolerationsSame_self (l : List Toleration) :
    AreTolerationsSame l l = true := by
  simp [AreTolerationsSame]

theorem containerSame_self (c : Container) : containerSame c c = true := by
  simp [containerSame, AreResourceRequementsSame, EnvValueEqual]

theorem suspendDiffers_self (j : CronJob) : suspendDiffers j j = false := by
  unfold suspendDiffers
  cases j.spec.suspend <;> simp

theorem compareContainers_self (ls : List Container) :
    compareContainers ls ls = some true := by
  induction ls with
  | nil => rfl
  | cons c t ih => simp [compareContainers, containerSame_self, ih]

theorem compareContainers_isSome (ls rs : List Container)
    (h : ls.length ≤ rs.length) : (compareContainers ls rs).isSome = true := by
  induction ls generalizing rs with
  | nil => simp [compareContainers]
  | cons c t ih =>
    cases rs with
    | nil => simp at h
    | cons o rt =>
      simp only [List.length_cons, Nat.add_le_add_iff_right] at h
      by_cases hc : containerSame c o = true
      · simpa [compareContainers, hc] using ih rt h
      · simp [compareContainers, hc]

theorem compareContainers_prefix_none (ls rs : List Container)
    (hlen : rs.length < ls.length) (hpre : rs = ls.take rs.length) :
    compareContainers ls rs = none := by
  induction rs generalizing ls with
  | nil =>
    cases ls with
    | nil => simp at hlen
    | cons c t => rfl
  | cons o rt ih =>
    cases ls with
    | nil => simp at hlen
    | cons c t =>
      simp only [List.length_cons, List.take_succ_cons, List.cons.injEq] at hpre
      obtain ⟨rfl, hpre⟩ := hpre
      simp only [List.length_cons, Nat.add_lt_add_iff_right] at hlen
      simp [compareContainers, containerSame_self, ih t hlen hpre]

/-! ## Helper lemmas on areCronJobsSame -/

theorem areCronJobsSame_self (j : CronJob)
    (h : (j.nodeSelector.map Prod.fst).Nodup) :
    areCronJobsSame j j = some (true, j) := by
  unfold areCronJobsSame
  simp [AreStringMapsSame_self _ h, AreTolerationsSame_self, suspendDiffers_self,
        compareContainers_self]

/-- The returned CronJob of areCronJobsSame always keeps the lhs metadata. -/
theorem areCronJobsSame_meta (lhs rhs : CronJob) (b : Bool) (c : CronJob)
    (h : areCronJobsSame lhs rhs = some (b, c)) : c.meta = lhs.meta := by
  unfold areCronJobsSame at h
  split at h
  · simp at h; exact h.2 ▸ rfl
  · split at h
    · simp at h; exact h.2 ▸ rfl
    · split at h
      · simp at h; exact h.2 ▸ rfl
      · split at h
        · simp at h
          have := h.2
          subst this
          rfl
        · split at h
          · simp at h; exact h.2 ▸ rfl
          · cases hc : compareContainers lhs.containers rhs.containers with
            | none => rw [hc] at h; simp at h
            | some v =>
              rw [hc] at h
              simp [Option.map] at h
              exact h.2 ▸ rfl

/-- When only the schedule differs, areCronJobsSame signals "different" and
returns the lhs with the desired schedule adopted. -/
theorem areCronJobsSame_schedule_drift (j : CronJob) (s2 : String)
    (hnd : (j.nodeSelector.map Prod.fst).Nodup)
    (hne : j.spec.schedule ≠ s2) :
    areCronJobsSame j (j.setSchedule s2) = some (false, j.setSchedule s2) := by
  have hsel : (j.setSchedule s2).nodeSelector = j.nodeSelector := rfl
  have htol : (j.setSchedule s2).tolerations = j.tolerations := rfl
  unfold areCronJobsSame
  rw [hsel, htol]
  simp only [AreStringMapsSame_self _ hnd, AreTolerationsSame_self,
             Bool.not_true, Bool.false_eq_true, if_false,
             ne_eq, ite_not, Bool.not_eq_true]
  have hsched : (j.setSchedule s2).spec.schedule = s2 := rfl
  rw [hsched, if_neg hne]
  simp

/-! ## Helper lemmas on the duration parser -/

theorem parseMillisChars_digits_aux :
    ∀ (ds rest : List Char) (v acc : Nat), (∀ c ∈ ds, c.isDigit = true) →
      parseMillisChars (ds ++ rest) (some v) acc =
        parseMillisChars rest (some (ds.foldl (fun a c => a * 10 + (c.toNat - 48)) v)) acc := by
  intro ds
  induction ds with
  | nil => intro rest v acc _; simp
  | cons c t ih =>
    intro rest v acc h
    have hc : c.isDigit = true := h c (by simp)
    simp only [List.cons_append, parseMillisChars, hc, if_true, Option.getD_some,
               List.foldl_cons]
    exact ih rest _ acc (fun x hx => h x (by simp [hx]))

theorem parseMillisChars_digits (ds rest : List Char) (acc : Nat)
    (hne : ds ≠ []) (h : ∀ c ∈ ds, c.isDigit = true) :
    parseMillisChars (ds ++ rest) none acc = parseMillisChars rest (some (digitsVal ds)) acc := by
  cases ds with
  | nil => exact absurd rfl hne
  | cons c t =>
    have hc : c.isDigit = true := h c (by simp)
    simp only [List.cons_append, parseMillisChars, hc, if_true, Option.getD_none,
               List.append_eq]
    rw [parseMillisChars_digits_aux t rest _ acc (fun x hx => h x (by simp [hx]))]
    simp [digitsVal]

theorem unitOfChar_char (u : TimeUnit) : unitOfChar u.char = some u := by
  cases u <;> rfl

theorem char_not_digit (u : TimeUnit) : (u.char).isDigit = false := by
  cases u <;> rfl

theorem parseMillisChars_render :
    ∀ (segs : List (List Char × TimeUnit)) (acc : Nat),
      (∀ p ∈ segs, p.1 ≠ [] ∧ ∀ c ∈ p.1, c.isDigit = true) →
      parseMillisChars (renderSegments segs) none acc = .ok (acc + segmentsMillis segs) := by
  intro segs
  induction segs with
  | nil => intro acc _; simp [renderSegments, segmentsMillis, parseMillisChars]
  | cons p t ih =>
    intro acc h
    obtain ⟨ds, u⟩ := p
    have hp := h (ds, u) (by simp)
    simp only [renderSegments, List.foldr_cons]
    rw [parseMillisChars_digits ds _ acc hp.1 hp.2]
    simp only [parseMillisChars, char_not_digit u, if_false, unitOfChar_char,
               Bool.false_eq_true]
    have ht := ih (acc + digitsVal ds * u.factor) (fun q hq => h q (by simp [hq]))
    unfold renderSegments at ht
    rw [ht]
    simp [segmentsMillis, Nat.add_assoc]

/-! ## Helper lemmas on the store and the converger -/

theorem find?_append_of_none {α : Type} (p : α → Bool) (l1 l2 : List α)
    (h : l1.find? p = none) : (l1 ++ l2).find? p = l2.find? p := by
  induction l1 with
  | nil => simp
  | cons a t ih =>
    by_cases hpa : p a = true
    · rw [List.find?_cons_of_pos _ hpa] at h
      cases h
    · have hpa' : p a = false := by simpa using hpa
      rw [List.find?_cons_of_neg _ (by simp [hpa'])] at h
      rw [List.cons_append, List.find?_cons_of_neg _ (by simp [hpa'])]
      exact ih h

theorem find?_map_replace {α : Type} (P : α → Bool) (new : α) (hnew : P new = true) :
    ∀ l : List α, (l.find? P).isSome = true →
      (l.map (fun a => if P a then new else a)).find? P = some new := by
  intro l
  induction l with
  | nil => intro h; simp at h
  | cons a t ih =>
    intro h
    by_cases hpa : P a = true
    · simp only [List.map_cons, if_pos hpa]
      exact List.find?_cons_of_pos _ hnew
    · have hpa' : P a = false := by simpa using hpa
      simp only [List.map_cons, if_neg hpa]
      rw [List.find?_cons_of_neg _ (by simp [hpa'])]
      apply ih
      rwa [List.find?_cons_of_neg _ (by simp [hpa'])] at h

theorem findJob_eq (s : Store) (name ns : String) (sj : StoredJob)
    (h : s.findJob name ns = some sj) :
    sj.job.meta.name = name ∧ sj.job.meta.ns = ns := by
  unfold Store.findJob at h
  have hp := List.find?_some h
  simpa using hp

theorem findCM_eq (s : Store) (name ns : String) (sc : StoredConfigMap)
    (h : s.findCM name ns = some sc) :
    sc.cm.meta.name = name ∧ sc.cm.meta.ns = ns := by
  unfold Store.findCM at h
  have hp := List.find?_some h
  simpa using hp

theorem createJob_alreadyExists (s : Store) (j : CronJob)
    (hcf : s.createFault = none)
    (h : (s.findJob j.meta.name j.meta.ns).isSome = true) :
    s.createJob j = .error .alreadyExists := by
  unfold Store.createJob
  rw [hcf]
  simp [h]

theorem createJob_ok (s : Store) (j : CronJob)
    (hcf : s.createFault = none)
    (h : s.findJob j.meta.name j.meta.ns = none) :
    s.createJob j =
      .ok { s with jobs := s.jobs ++ [⟨s.nextVersion, j⟩], nextVersion := s.nextVersion + 1 } := by
  unfold Store.createJob
  rw [hcf]
  simp [h]

theorem createJob_fault (s : Store) (j : CronJob) (e : StoreErr)
    (hcf : s.createFault = some e) : s.createJob j = .error e := by
  unfold Store.createJob
  rw [hcf]

theorem createCM_alreadyExists (s : Store) (c : ConfigMap)
    (hcf : s.createFault = none)
    (h : (s.findCM c.meta.name c.meta.ns).isSome = true) :
    s.createCM c = .error .alreadyExists := by
  unfold Store.createCM
  rw [hcf]
  simp [h]

theorem createCM_ok (s : Store) (c : ConfigMap)
    (hcf : s.createFault = none)
    (h : s.findCM c.meta.name c.meta.ns = none) :
    s.createCM c =
      .ok { s with configmaps := s.configmaps ++ [⟨s.nextVersion, c⟩],
                   nextVersion := s.nextVersion + 1 } := by
  unfold Store.createCM
  rw [hcf]
  simp [h]

theorem createCM_fault (s : Store) (c : ConfigMap) (e : StoreErr)
    (hcf : s.createFault = some e) : s.createCM c = .error e := by
  unfold Store.createCM
  rw [hcf]

theorem getJob_of_find (s : Store) (name ns : String) (sj : StoredJob)
    (h : s.findJob name ns = some sj) : s.getJob name ns = .ok sj := by
  unfold Store.getJob
  rw [h]

theorem getCM_of_find (s : Store) (name ns : String) (sc : StoredConfigMap)
    (h : s.findCM name ns = some sc) : s.getCM name ns = .ok sc := by
  unfold Store.getCM
  rw [h]

theorem retryOpt_ok (n : Nat) (body : Store → Option (Except StoreErr Unit × Store × List Op))
    (s s2 : Store) (t : List Op) (h : body s = some (.ok (), s2, t)) :
    retryOnConflictOpt (n + 1) body s = some (.ok (), s2, t) := by
  unfold retryOnConflictOpt
  rw [h]

theorem retry_ok (n : Nat) (body : Store → Except StoreErr Unit × Store × List Op)
    (s s2 : Store) (t : List Op) (h : body s = (.ok (), s2, t)) :
    retryOnConflict (n + 1) body s = (.ok (), s2, t) := by
  unfold retryOnConflict
  rw [h]

theorem reconcileCronJob_of_create_ok (s : Store) (desired : CronJob) (s2 : Store)
    (h : s.createJob desired = .ok s2) :
    reconcileCronJob s desired = some (.ok (), s2, [.create desired.meta.name]) := by
  unfold reconcileCronJob
  rw [h]

theorem reconcileCronJob_of_create_fatal (s : Store) (desired : CronJob) (e : StoreErr)
    (h : s.createJob desired = .error e) (hne : e ≠ .alreadyExists) :
    reconcileCronJob s desired =
      some (.error "failed to create cronjob for cluster", s, [.create desired.meta.name]) := by
  unfold reconcileCronJob
  rw [h]
  simp [hne]

theorem reconcileCronJob_of_already (s : Store) (desired : CronJob)
    (h : s.createJob desired = .error .alreadyExists) :
    reconcileCronJob s desired =
      (retryOnConflictOpt defaultRetrySteps (cronUpdateBody desired) s).map
        (fun r => (wrapErr r.1 "failed to update cronjob for cluster", r.2.1,
                   .create desired.meta.name :: r.2.2)) := by
  unfold reconcileCronJob
  rw [h]
  simp

theorem cronUpdateBody_same (desired : CronJob) (s : Store) (cur : StoredJob) (x : CronJob)
    (hget : s.findJob desired.meta.name desired.meta.ns = some cur)
    (hsame : areCronJobsSame cur.job desired = some (true, x)) :
    cronUpdateBody desired s = some (.ok (), s, [.get desired.meta.name]) := by
  unfold cronUpdateBody
  rw [getJob_of_find s _ _ cur hget]
  simp [hsame]

theorem cronUpdateBody_diff (desired : CronJob) (s : Store) (cur : StoredJob)
    (mutJob : CronJob) (s2 : Store)
    (hget : s.findJob desired.meta.name desired.meta.ns = some cur)
    (hdiff : areCronJobsSame cur.job desired = some (false, mutJob))
    (hupd : s.updateJob { mutJob with spec := desired.spec } = .ok s2) :
    cronUpdateBody desired s =
      some (.ok (), s2, [.get desired.meta.name, .update desired.meta.name]) := by
  unfold cronUpdateBody
  rw [getJob_of_find s _ _ cur hget]
  simp [hdiff, hupd]

theorem updateJob_ok_eq (s : Store) (j : CronJob)
    (h : (s.findJob j.meta.name j.meta.ns).isSome = true) :
    s.updateJob j =
      .ok { s with
            jobs := s.jobs.map (fun sj =>
              if decide (sj.job.meta.name = j.meta.name ∧ sj.job.meta.ns = j.meta.ns) then
                ⟨s.nextVersion, j⟩
              else sj),
            nextVersion := s.nextVersion + 1 } := by
  unfold Store.updateJob
  rw [if_pos h]

/-- After a successful create of an absent object, the object is found under
the pre-create next version. -/
theorem findJob_after_append (s : Store) (j : CronJob)
    (h : s.findJob j.meta.name j.meta.ns = none) :
    Store.findJob
        { s with jobs := s.jobs ++ [⟨s.nextVersion, j⟩], nextVersion := s.nextVersion + 1 }
        j.meta.name j.meta.ns = some ⟨s.nextVersion, j⟩ := by
  unfold Store.findJob at h ⊢
  rw [find?_append_of_none _ _ _ h]
  exact List.find?_cons_of_pos _ (by simp)

/-- After a successful create of an absent config map, it is found under the
pre-create next version. -/
theorem findCM_after_append (s : Store) (c : ConfigMap)
    (h : s.findCM c.meta.name c.meta.ns = none) :
    Store.findCM
        { s with configmaps := s.configmaps ++ [⟨s.nextVersion, c⟩],
                 nextVersion := s.nextVersion + 1 }
        c.meta.name c.meta.ns = some ⟨s.nextVersion, c⟩ := by
  unfold Store.findCM at h ⊢
  rw [find?_append_of_none _ _ _ h]
  exact List.find?_cons_of_pos _ (by simp)

theorem cmUpdateBody_same (desired : ConfigMap) (s : Store) (cur : StoredConfigMap)
    (hget : s.findCM desired.meta.name desired.meta.ns = some cur)
    (heq : desired.data = cur.cm.data) :
    cmUpdateBody desired s = (.ok (), s, [.get desired.meta.name]) := by
  unfold cmUpdateBody
  rw [getCM_of_find s _ _ cur hget]
  simp [heq]

theorem cmUpdateBody_diff (desired : ConfigMap) (s : Store) (cur : StoredConfigMap)
    (s2 : Store)
    (hget : s.findCM desired.meta.name desired.meta.ns = some cur)
    (hne : desired.data ≠ cur.cm.data)
    (hupd : s.updateCM { cur.cm with data := desired.data } = .ok s2) :
    cmUpdateBody desired s =
      (.ok (), s2, [.get desired.meta.name, .update desired.meta.name]) := by
  unfold cmUpdateBody
  rw [getCM_of_find s _ _ cur hget]
  simp [hne, hupd]

theorem reconcileCM_of_create_ok (s : Store) (cluster : Elasticsearch) (s2 : Store)
    (h : s.createCM (curationDesired cluster) = .ok s2) :
    ReconcileCurationConfigmap s cluster = (.ok (), s2, [.create indexManagementConfigmap]) := by
  unfold ReconcileCurationConfigmap
  rw [h]

theorem reconcileCM_of_create_fatal (s : Store) (cluster : Elasticsearch) (e : StoreErr)
    (h : s.createCM (curationDesired cluster) = .error e) (hne : e ≠ .alreadyExists) :
    ReconcileCurationConfigmap s cluster =
      (.error "failed to create cluster configmap", s, [.create indexManagementConfigmap]) := by
  unfold ReconcileCurationConfigmap
  rw [h]
  simp [hne]

theorem reconcileCM_of_already (s : Store) (cluster : Elasticsearch)
    (h : s.createCM (curationDesired cluster) = .error .alreadyExists) :
    ReconcileCurationConfigmap s cluster =
      (wrapErr (retryOnConflict defaultRetrySteps (cmUpdateBody (curationDesired cluster)) s).1
         "failed to update configmap",
       (retryOnConflict defaultRetrySteps (cmUpdateBody (curationDesired cluster)) s).2.1,
       .create indexManagementConfigmap ::
         (retryOnConflict defaultRetrySteps (cmUpdateBody (curationDesired cluster)) s).2.2) := by
  unfold ReconcileCurationConfigmap
  rw [h]
  simp

theorem updateCM_ok_eq (s : Store) (c : ConfigMap)
    (h : (s.findCM c.meta.name c.meta.ns).isSome = true) :
    s.updateCM c =
      .ok { s with
            configmaps := s.configmaps.map (fun sc =>
              if decide (sc.cm.meta.name = c.meta.name ∧ sc.cm.meta.ns = c.meta.ns) then
                ⟨s.nextVersion, c⟩
              else sc),
            nextVersion := s.nextVersion + 1 } := by
  unfold Store.updateCM
  rw [if_pos h]

/-- The no-write path for the config map: create reports alreadyExists and the
stored data equals the desired data, so the pass performs the failed create
and a get and leaves the store untouched. -/
theorem reconcileCM_noop (s : Store) (cluster : Elasticsearch) (cur : StoredConfigMap)
    (hcf : s.createFault = none)
    (hfind : s.findCM indexManagementConfigmap cluster.ns = some cur)
    (heq : cur.cm.data = scriptMap) :
    ReconcileCurationConfigmap s cluster =
      (.ok (), s, [.create indexManagementConfigmap, .get indexManagementConfigmap]) := by
  have hfind' : s.findCM (curationDesired cluster).meta.name (curationDesired cluster).meta.ns
      = some cur := hfind
  rw [reconcileCM_of_already s cluster
        (createCM_alreadyExists s _ hcf (by rw [hfind']; rfl))]
  rw [show defaultRetrySteps = 4 + 1 from rfl,
      retry_ok 4 _ s s _ (cmUpdateBody_same (curationDesired cluster) s cur hfind' heq.symm)]
  rfl

/-- The no-write path: create reports alreadyExists, the fetched object is
reported "same", so the pass performs the failed create and a get and leaves
the store untouched. -/
theorem reconcileCronJob_noop (s : Store) (desired : CronJob) (cur : StoredJob) (x : CronJob)
    (hcf : s.createFault = none)
    (hfind : s.findJob desired.meta.name desired.meta.ns = some cur)
    (hsame : areCronJobsSame cur.job desired = some (true, x)) :
    reconcileCronJob s desired =
      some (.ok (), s, [.create desired.meta.name, .get desired.meta.name]) := by
  rw [reconcileCronJob_of_already s desired
        (createJob_alreadyExists s desired hcf (by rw [hfind]; rfl))]
  rw [show defaultRetrySteps = 4 + 1 from rfl,
      retryOpt_ok 4 _ s s _ (cronUpdateBody_same desired s cur x hfind hsame)]
  rfl

/-- Claim C1 (code bug): the source guard compares the current side's
container count to itself, so a pair whose container counts differ (current
has 1 container, desired has 2, all compared prefix fields equal) is reported
"same" — evaluating the embedded code at the failing input. -/
theorem claimC1 :
    cronOne.containers.length = 1 ∧ cronTwo.containers.length = 2 ∧
    areCronJobsSame cronOne cronTwo = some (true, cronOne) :=
  ⟨rfl, rfl, by decide⟩

/-- Claim C7: when the Hot phase sets an explicit max size, the rollover
conditions carry that size unchanged for every primary-shard count; when it is
unset, the max size is defaultShardSize multiplied by the shard count. -/
theorem claimC7 : ∀ (hot : HotPhase) (primaryShards : Int),
    (∀ s, hot.maxSize = some s → (rolloverConditionsFor hot primaryShards).maxSize = s)
    ∧ (hot.maxSize = none →
        (rolloverConditionsFor hot primaryShards).maxSize =
          toString (defaultShardSize * primaryShards) ++ "gb") := by
  intro hot shards
  constructor
  · intro s hs
    simp [rolloverConditionsFor, hs]
  · intro hs
    simp [rolloverConditionsFor, hs]

/-- Witness for claim C7: an explicit "10gb" max size passes through at 5
shards, and an unset max size at 3 shards yields 3 times the 40 GiB default. -/
theorem claimC7_witness :
    (rolloverConditionsFor ⟨none, none, some "10gb"⟩ 5).maxSize = "10gb"
    ∧ (rolloverConditionsFor ⟨some "7d", some 1000, none⟩ 3).maxSize = "120gb" := by
  constructor
  · exact (claimC7 ⟨none, none, some "10gb"⟩ 5).1 "10gb" rfl
  · have h := (claimC7 ⟨some "7d", some 1000, none⟩ 3).2 rfl
    rw [h]
    rfl

/-- Claim C8: for every valid duration string assembled from supported units,
calculateMillisForTimeUnit converts with the fixed factors 1000, 60000,
3600000, 86400000 and 604800000 milliseconds, and in particular maps "1d" to
86400000 and "1w" to 604800000. -/
theorem claimC8 :
    (∀ segs : List (List Char × TimeUnit),
        (∀ p ∈ segs, p.1 ≠ [] ∧ ∀ c ∈ p.1, c.isDigit = true) →
        calculateMillisForTimeUnit (String.mk (renderSegments segs)) = .ok (segmentsMillis segs))
    ∧ calculateMillisForTimeUnit "1d" = .ok 86400000
    ∧ calculateMillisForTimeUnit "1w" = .ok 604800000
    ∧ millisPerSecond = 1000 ∧ millisPerMinute = 60000 ∧ millisPerHour = 3600000
    ∧ millisPerDay = 86400000 ∧ millisPerWeek = 604800000 := by
  refine ⟨?_, rfl, rfl, rfl, rfl, rfl, rfl, rfl⟩
  intro segs h
  unfold calculateMillisForTimeUnit
  have : (String.mk (renderSegments segs)).data = renderSegments segs := rfl
  rw [this, parseMillisChars_render segs 0 h]
  simp

/-- Witness for claim C8: the valid duration string "1d2h" converts to
86400000 + 2 times 3600000 = 93600000 milliseconds. -/
theorem claimC8_witness :
    calculateMillisForTimeUnit
        (String.mk (renderSegments [(['1'], TimeUnit.d), (['2'], TimeUnit.h)])) =
      .ok 93600000 := by
  have h := claimC8.1 [(['1'], TimeUnit.d), (['2'], TimeUnit.h)] (by decide)
  rw [h]
  rfl

/-- Claim C9: areCronJobsSame is total whenever the current (lhs) object has
no more containers than the desired (rhs) object, and when the compared
fields preceding the loop all pass but the current side has strictly more
containers (the desired list being the compared prefix) the unchecked index
access falls out of bounds (`none`, the Go panic). -/
theorem claimC9 : ∀ lhs rhs : CronJob,
    (lhs.containers.length ≤ rhs.containers.length →
      (areCronJobsSame lhs rhs).isSome = true)
    ∧ (AreStringMapsSame lhs.nodeSelector rhs.nodeSelector = true →
       AreTolerationsSame lhs.tolerations rhs.tolerations = true →
       lhs.spec.schedule = rhs.spec.schedule →
       suspendDiffers lhs rhs = false →
       rhs.containers.length < lhs.containers.length →
       rhs.containers = lhs.containers.take rhs.containers.length →
       areCronJobsSame lhs rhs = none) := by
  intro lhs rhs
  constructor
  · intro h
    have hs := compareContainers_isSome lhs.containers rhs.containers h
    unfold areCronJobsSame
    split
    · simp
    · split
      · simp
      · split
        · simp
        · split
          · simp
          · split
            · simp
            · cases hc : compareContainers lhs.containers rhs.containers with
              | none => rw [hc] at hs; simp at hs
              | some v => simp
  · intro h1 h2 h3 h4 h5 h6
    unfold areCronJobsSame
    rw [if_neg (by simp), if_neg (by simp [h1]), if_neg (by simp [h2]),
        if_neg (by simp [h3]), if_neg (by simp [h4]),
        compareContainers_prefix_none _ _ h5 h6]
    rfl

/-- Witness for claim C9: the totality branch at equal one-container jobs, and
the out-of-bounds branch at the two-container current versus its
one-container prefix as desired. -/
theorem claimC9_witness :
    (areCronJobsSame cronOne cronOne).isSome = true
    ∧ areCronJobsSame cronTwo cronOne = none := by
  constructor
  · exact (claimC9 cronOne cronOne).1 (by decide)
  · exact (claimC9 cronTwo cronOne).2 (by decide) (by decide) (by decide)
      (by decide) (by decide) (by decide)

/-- Claim C2: when the desired scheduled job differs from the stored one only
in the schedule, the next pass issues exactly one update, and the stored
object afterwards is the old one with only the schedule replaced; every other
stored object and all config maps are untouched. -/
theorem claimC2 (s : Store) (v : Nat) (J : CronJob) (s2 : String)
    (hcf : s.createFault = none)
    (hfind : s.findJob J.meta.name J.meta.ns = some ⟨v, J⟩)
    (hnd : (J.nodeSelector.map Prod.fst).Nodup)
    (hne : J.spec.schedule ≠ s2) :
    ∃ s3 : Store,
      reconcileCronJob s (J.setSchedule s2) =
        some (.ok (), s3, [.create J.meta.name, .get J.meta.name, .update J.meta.name])
      ∧ updateCount [Op.create J.meta.name, Op.get J.meta.name, Op.update J.meta.name] = 1
      ∧ s3.findJob J.meta.name J.meta.ns = some ⟨s.nextVersion, J.setSchedule s2⟩
      ∧ (∀ sj ∈ s.jobs,
          ¬(sj.job.meta.name = J.meta.name ∧ sj.job.meta.ns = J.meta.ns) → sj ∈ s3.jobs)
      ∧ s3.configmaps = s.configmaps := by
  have hsome : (s.findJob (J.setSchedule s2).meta.name (J.setSchedule s2).meta.ns).isSome
      = true := by
    show (s.findJob J.meta.name J.meta.ns).isSome = true
    rw [hfind]; rfl
  have hcreate := createJob_alreadyExists s (J.setSchedule s2) hcf hsome
  have hget : s.findJob (J.setSchedule s2).meta.name (J.setSchedule s2).meta.ns
      = some ⟨v, J⟩ := hfind
  have hsame := areCronJobsSame_schedule_drift J s2 hnd hne
  have hupd := updateJob_ok_eq s (J.setSchedule s2) hsome
  refine ⟨{ s with
            jobs := s.jobs.map (fun sj =>
              if decide (sj.job.meta.name = (J.setSchedule s2).meta.name ∧
                  sj.job.meta.ns = (J.setSchedule s2).meta.ns) then
                ⟨s.nextVersion, J.setSchedule s2⟩
              else sj),
            nextVersion := s.nextVersion + 1 }, ?_, rfl, ?_, ?_, rfl⟩
  · rw [reconcileCronJob_of_already s (J.setSchedule s2) hcreate,
        show defaultRetrySteps = 4 + 1 from rfl,
        retryOpt_ok 4 _ s _ _
          (cronUpdateBody_diff (J.setSchedule s2) s ⟨v, J⟩ (J.setSchedule s2) _ hget hsame hupd)]
    rfl
  · exact find?_map_replace
      (fun sj : StoredJob => decide (sj.job.meta.name = (J.setSchedule s2).meta.name ∧
        sj.job.meta.ns = (J.setSchedule s2).meta.ns))
      ⟨s.nextVersion, J.setSchedule s2⟩ (by simp) s.jobs hsome
  · intro sj hm hn
    have hid : (if decide (sj.job.meta.name = (J.setSchedule s2).meta.name ∧
        sj.job.meta.ns = (J.setSchedule s2).meta.ns) then
          (⟨s.nextVersion, J.setSchedule s2⟩ : StoredJob)
        else sj) = sj := by
      rw [if_neg]
      simpa using hn
    exact hid ▸ List.mem_map_of_mem _ hm

/-- Witness for claim C2: on a store holding cronOne, reconciling cronOne with
only its schedule changed issues the create-get-update trace with exactly one
update. -/
theorem claimC2_witness :
    ∃ s3 : Store,
      reconcileCronJob exStore1 (cronOne.setSchedule "*/5 * * * *") =
        some (.ok (), s3,
          [.create cronOne.meta.name, .get cronOne.meta.name, .update cronOne.meta.name])
      ∧ s3.findJob cronOne.meta.name cronOne.meta.ns =
          some ⟨exStore1.nextVersion, cronOne.setSchedule "*/5 * * * *"⟩ := by
  obtain ⟨s3, h1, _, h3, _, _⟩ :=
    claimC2 exStore1 0 cronOne "*/5 * * * *" rfl (by decide) (by decide) (by decide)
  exact ⟨s3, h1, h3⟩

/-- Claim C3: on the update path, a predicate-equal current object means no
Update call — for the scheduled job and for the config map alike, and in
particular a second reconciliation of an unchanged desired object issues zero
updates and leaves the store (hence the remote version) untouched. -/
theorem claimC3 :
    (∀ (s : Store) (desired : CronJob) (cur : StoredJob) (x : CronJob),
       s.createFault = none →
       s.findJob desired.meta.name desired.meta.ns = some cur →
       areCronJobsSame cur.job desired = some (true, x) →
       reconcileCronJob s desired =
         some (.ok (), s, [.create desired.meta.name, .get desired.meta.name])
       ∧ updateCount [Op.create desired.meta.name, Op.get desired.meta.name] = 0)
    ∧ (∀ (s : Store) (desired : CronJob),
       s.createFault = none →
       s.findJob desired.meta.name desired.meta.ns = none →
       (desired.nodeSelector.map Prod.fst).Nodup →
       ∃ s1, reconcileCronJob s desired = some (.ok (), s1, [.create desired.meta.name])
         ∧ reconcileCronJob s1 desired =
             some (.ok (), s1, [.create desired.meta.name, .get desired.meta.name]))
    ∧ (∀ (s : Store) (cluster : Elasticsearch) (cur : StoredConfigMap),
       s.createFault = none →
       s.findCM indexManagementConfigmap cluster.ns = some cur →
       cur.cm.data = scriptMap →
       ReconcileCurationConfigmap s cluster =
         (.ok (), s, [.create indexManagementConfigmap, .get indexManagementConfigmap])
       ∧ updateCount [Op.create indexManagementConfigmap, Op.get indexManagementConfigmap] = 0)
    ∧ (∀ (s : Store) (cluster : Elasticsearch),
       s.createFault = none →
       s.findCM indexManagementConfigmap cluster.ns = none →
       ∃ s1, ReconcileCurationConfigmap s cluster =
           (.ok (), s1, [.create indexManagementConfigmap])
         ∧ ReconcileCurationConfigmap s1 cluster =
             (.ok (), s1, [.create indexManagementConfigmap, .get indexManagementConfigmap])) := by
  refine ⟨?_, ?_, ?_, ?_⟩
  · intro s desired cur x hcf hfind hsame
    exact ⟨reconcileCronJob_noop s desired cur x hcf hfind hsame, rfl⟩
  · intro s desired hcf hfind hnd
    refine ⟨_, reconcileCronJob_of_create_ok s desired _ (createJob_ok s desired hcf hfind), ?_⟩
    exact reconcileCronJob_noop _ desired ⟨s.nextVersion, desired⟩ desired hcf
      (findJob_after_append s desired hfind) (areCronJobsSame_self desired hnd)
  · intro s cluster cur hcf hfind heq
    exact ⟨reconcileCM_noop s cluster cur hcf hfind heq, rfl⟩
  · intro s cluster hcf hfind
    have hfind' : s.findCM (curationDesired cluster).meta.name
        (curationDesired cluster).meta.ns = none := hfind
    refine ⟨_, reconcileCM_of_create_ok s cluster _ (createCM_ok s _ hcf hfind'), ?_⟩
    exact reconcileCM_noop _ cluster ⟨s.nextVersion, curationDesired cluster⟩ hcf
      (findCM_after_append s (curationDesired cluster) hfind') rfl

/-- Witness for claim C3: the cron no-write path on a store holding cronOne,
the cron two-pass scenario from the empty store, the config-map no-write path
on a store holding the curation config map, and the config-map two-pass
scenario from the empty store. -/
theorem claimC3_witness :
    (reconcileCronJob exStore1 cronOne =
        some (.ok (), exStore1, [.create cronOne.meta.name, .get cronOne.meta.name]))
    ∧ (∃ s1, reconcileCronJob exStore0 cronOne = some (.ok (), s1, [.create cronOne.meta.name])
        ∧ reconcileCronJob s1 cronOne =
            some (.ok (), s1, [.create cronOne.meta.name, .get cronOne.meta.name]))
    ∧ (ReconcileCurationConfigmap exStoreCM exCluster =
        (.ok (), exStoreCM, [.create indexManagementConfigmap, .get indexManagementConfigmap]))
    ∧ (∃ s1, ReconcileCurationConfigmap exStore0 exCluster =
          (.ok (), s1, [.create indexManagementConfigmap])
        ∧ ReconcileCurationConfigmap s1 exCluster =
            (.ok (), s1, [.create indexManagementConfigmap, .get indexManagementConfigmap])) := by
  refine ⟨?_, ?_, ?_, ?_⟩
  · exact (claimC3.1 exStore1 cronOne ⟨0, cronOne⟩ cronOne rfl (by decide) (by decide)).1
  · exact claimC3.2.1 exStore0 cronOne rfl (by decide) (by decide)
  · exact (claimC3.2.2.1 exStoreCM exCluster ⟨0, curationDesired exCluster⟩ rfl
      (by decide) (by decide)).1
  · exact claimC3.2.2.2 exStore0 exCluster rfl (by decide)

/-- Claim C4: in the create-or-update protocol (scheduled job and config map),
a successful Create ends the pass with no further store operations; an
alreadyExists failure enters the update path (the next operation is the Get);
any other Create failure is returned as a wrapped error immediately, with no
retry and no update attempt. -/
theorem claimC4 :
    (∀ (s : Store) (desired : CronJob),
       s.createFault = none →
       s.findJob desired.meta.name desired.meta.ns = none →
       ∃ s1, reconcileCronJob s desired = some (.ok (), s1, [.create desired.meta.name]))
    ∧ (∀ (s : Store) (desired : CronJob) (cur : StoredJob),
       s.createFault = none →
       s.findJob desired.meta.name desired.meta.ns = some cur →
       (areCronJobsSame cur.job desired).isSome = true →
       ∃ r s1 rest, reconcileCronJob s desired =
         some (r, s1, .create desired.meta.name :: .get desired.meta.name :: rest))
    ∧ (∀ (s : Store) (desired : CronJob) (e : StoreErr),
       s.createFault = some e → e ≠ .alreadyExists →
       reconcileCronJob s desired =
         some (.error "failed to create cronjob for cluster", s, [.create desired.meta.name]))
    ∧ (∀ (s : Store) (cluster : Elasticsearch),
       s.createFault = none →
       s.findCM indexManagementConfigmap cluster.ns = none →
       ∃ s1, ReconcileCurationConfigmap s cluster =
         (.ok (), s1, [.create indexManagementConfigmap]))
    ∧ (∀ (s : Store) (cluster : Elasticsearch) (cur : StoredConfigMap),
       s.createFault = none →
       s.findCM indexManagementConfigmap cluster.ns = some cur →
       ∃ r s1 rest, ReconcileCurationConfigmap s cluster =
         (r, s1, .create indexManagementConfigmap :: .get indexManagementConfigmap :: rest))
    ∧ (∀ (s : Store) (cluster : Elasticsearch) (e : StoreErr),
       s.createFault = some e → e ≠ .alreadyExists →
       ReconcileCurationConfigmap s cluster =
         (.error "failed to create cluster configmap", s, [.create indexManagementConfigmap])) := by
  refine ⟨?_, ?_, ?_, ?_, ?_, ?_⟩
  · intro s desired hcf hfind
    exact ⟨_, reconcileCronJob_of_create_ok s desired _ (createJob_ok s desired hcf hfind)⟩
  · intro s desired cur hcf hfind hdef
    have hcreate := createJob_alreadyExists s desired hcf (by rw [hfind]; rfl)
    cases hc : areCronJobsSame cur.job desired with
    | none => rw [hc] at hdef; simp at hdef
    | some p =>
      obtain ⟨b, mj⟩ := p
      cases b with
      | true =>
        exact ⟨.ok (), s, [], by
          rw [reconcileCronJob_noop s desired cur mj hcf hfind hc]⟩
      | false =>
        have hmeta := areCronJobsSame_meta cur.job desired false mj hc
        have hje := findJob_eq s _ _ cur hfind
        have hsome2 : (s.findJob ({ mj with spec := desired.spec } : CronJob).meta.name
            ({ mj with spec := desired.spec } : CronJob).meta.ns).isSome = true := by
          show (s.findJob mj.meta.name mj.meta.ns).isSome = true
          rw [hmeta, hje.1, hje.2, hfind]
          rfl
        have hupd := updateJob_ok_eq s { mj with spec := desired.spec } hsome2
        exact ⟨.ok (), _, [.update desired.meta.name], by
          rw [reconcileCronJob_of_already s desired hcreate,
              show defaultRetrySteps = 4 + 1 from rfl,
              retryOpt_ok 4 _ s _ _ (cronUpdateBody_diff desired s cur mj _ hfind hc hupd)]
          rfl⟩
  · intro s desired e hcf hne
    exact reconcileCronJob_of_create_fatal s desired e (createJob_fault s desired e hcf) hne
  · intro s cluster hcf hfind
    have hfind' : s.findCM (curationDesired cluster).meta.name
        (curationDesired cluster).meta.ns = none := hfind
    exact ⟨_, reconcileCM_of_create_ok s cluster _ (createCM_ok s _ hcf hfind')⟩
  · intro s cluster cur hcf hfind
    have hfind' : s.findCM (curationDesired cluster).meta.name
        (curationDesired cluster).meta.ns = some cur := hfind
    have hcreate := createCM_alreadyExists s _ hcf (by rw [hfind']; rfl)
    by_cases hd : (curationDesired cluster).data = cur.cm.data
    · exact ⟨.ok (), s, [], by
        rw [reconcileCM_of_already s cluster hcreate,
            show defaultRetrySteps = 4 + 1 from rfl,
            retry_ok 4 _ s s _ (cmUpdateBody_same _ s cur hfind' hd)]
        rfl⟩
    · have hce := findCM_eq s _ _ cur hfind
      have hsome2 : (s.findCM
          ({ cur.cm with data := (curationDesired cluster).data } : ConfigMap).meta.name
          ({ cur.cm with data := (curationDesired cluster).data } : ConfigMap).meta.ns).isSome
          = true := by
        show (s.findCM cur.cm.meta.name cur.cm.meta.ns).isSome = true
        rw [hce.1, hce.2, hfind]
        rfl
      have hupd := updateCM_ok_eq s { cur.cm with data := (curationDesired cluster).data } hsome2
      exact ⟨.ok (), _, [.update indexManagementConfigmap], by
        rw [reconcileCM_of_already s cluster hcreate,
            show defaultRetrySteps = 4 + 1 from rfl,
            retry_ok 4 _ s _ _ (cmUpdateBody_diff _ s cur _ hfind' hd hupd)]
        rfl⟩
  · intro s cluster e hcf hne
    exact reconcileCM_of_create_fatal s cluster e (createCM_fault s _ e hcf) hne

/-- Witness for claim C4: create success on the empty store, the update path
entered on a store already holding cronOne, and the immediate wrapped error on
a store whose create fails with a non-alreadyExists fault — for the scheduled
job and the config map alike. -/
theorem claimC4_witness :
    (∃ s1, reconcileCronJob exStore0 cronOne = some (.ok (), s1, [.create cronOne.meta.name]))
    ∧ (∃ r s1 rest, reconcileCronJob exStore1 cronOne =
        some (r, s1, .create cronOne.meta.name :: .get cronOne.meta.name :: rest))
    ∧ (reconcileCronJob exStoreFault cronOne =
        some (.error "failed to create cronjob for cluster", exStoreFault,
          [.create cronOne.meta.name]))
    ∧ (∃ s1, ReconcileCurationConfigmap exStore0 exCluster =
        (.ok (), s1, [.create indexManagementConfigmap]))
    ∧ (∃ r s1 rest, ReconcileCurationConfigmap exStoreCM exCluster =
        (r, s1, .create indexManagementConfigmap :: .get indexManagementConfigmap :: rest))
    ∧ (ReconcileCurationConfigmap exStoreFault exCluster =
        (.error "failed to create cluster configmap", exStoreFault,
          [.create indexManagementConfigmap])) := by
  refine ⟨?_, ?_, ?_, ?_, ?_, ?_⟩
  · exact claimC4.1 exStore0 cronOne rfl (by decide)
  · exact claimC4.2.1 exStore1 cronOne ⟨0, cronOne⟩ rfl (by decide) (by decide)
  · exact claimC4.2.2.1 exStoreFault cronOne (.other "boom") rfl (by decide)
  · exact claimC4.2.2.2.1 exStore0 exCluster rfl (by decide)
  · exact claimC4.2.2.2.2.1 exStoreCM exCluster ⟨0, curationDesired exCluster⟩ rfl (by decide)
  · exact claimC4.2.2.2.2.2 exStoreFault exCluster (.other "boom") rfl (by decide)

/-! ## Helper lemmas on the orphan collector -/

theorem deleteJob_ok_spec (s : Store) (n ns : String) (s2 : Store)
    (h : s.deleteJob n ns = .ok s2) :
    s.deleteFaults.lookup n = none ∧
    s2 = { s with jobs := s.jobs.filter (fun sj =>
            !(decide (sj.job.meta.name = n ∧ sj.job.meta.ns = ns))) } := by
  unfold Store.deleteJob at h
  split at h
  next e hl => cases h
  next hl =>
    split at h
    next hfind => exact ⟨hl, (Except.ok.inj h).symm⟩
    next hfind => cases h

theorem deleteJob_error_spec (s : Store) (n ns : String) (e : StoreErr)
    (h : s.deleteJob n ns = .error e) :
    s.deleteFaults.lookup n = some e ∨
    (s.deleteFaults.lookup n = none ∧ e = .notFound ∧ s.findJob n ns = none) := by
  unfold Store.deleteJob at h
  split at h
  next e2 hl =>
    left
    rw [hl, Except.error.inj h]
  next hl =>
    split at h
    next hfind => cases h
    next hfind =>
      right
      refine ⟨hl, (Except.error.inj h).symm, ?_⟩
      simpa using hfind

theorem deleteOrphans_trace (ns : String) :
    ∀ (names : List String) (s : Store),
      (deleteOrphans ns names s).2.1 = names.map Op.delete := by
  intro names
  induction names with
  | nil => intro s; rfl
  | cons n rest ih =>
    intro s
    cases hd : s.deleteJob n ns with
    | ok s2 => simp [deleteOrphans, hd, ih]
    | error e =>
      simp only [deleteOrphans, hd]
      split <;> simp [ih]

theorem deleteOrphans_errs (ns : String) :
    ∀ (names : List String) (s : Store),
      (deleteOrphans ns names s).2.2 = names.filter (loggedFault s.deleteFaults) := by
  intro names
  induction names with
  | nil => intro s; rfl
  | cons n rest ih =>
    intro s
    cases hd : s.deleteJob n ns with
    | ok s2 =>
      obtain ⟨hl, hs2⟩ := deleteJob_ok_spec s n ns s2 hd
      have hfaults : s2.deleteFaults = s.deleteFaults := by rw [hs2]
      have hlog : loggedFault s.deleteFaults n = false := by simp [loggedFault, hl]
      simp [deleteOrphans, hd, ih, hfaults, List.filter_cons, hlog]
    | error e =>
      rcases deleteJob_error_spec s n ns e hd with hl | ⟨hl, he, _⟩
      · by_cases he : e = .notFound
        · have hlog : loggedFault s.deleteFaults n = false := by
            simp [loggedFault, hl, he]
          simp [deleteOrphans, hd, he, ih, List.filter_cons, hlog]
        · have hlog : loggedFault s.deleteFaults n = true := by
            simp [loggedFault, hl, he]
          simp [deleteOrphans, hd, he, ih, List.filter_cons, hlog]
      · have hlog : loggedFault s.deleteFaults n = false := by simp [loggedFault, hl]
        simp [deleteOrphans, hd, he, ih, List.filter_cons, hlog]

theorem deleteOrphans_jobs (ns : String) :
    ∀ (names : List String) (s : Store),
      (deleteOrphans ns names s).1.jobs =
        s.jobs.filter (fun sj =>
          decide (¬(sj.job.meta.name ∈ names ∧
            s.deleteFaults.lookup sj.job.meta.name = none ∧ sj.job.meta.ns = ns))) := by
  intro names
  induction names with
  | nil =>
    intro s
    rw [show (deleteOrphans ns [] s).1 = s from rfl]
    symm
    rw [List.filter_eq_self]
    intro a _
    simp
  | cons n rest ih =>
    intro s
    cases hd : s.deleteJob n ns with
    | ok s2 =>
      obtain ⟨hl, hs2⟩ := deleteJob_ok_spec s n ns s2 hd
      have h1 : (deleteOrphans ns (n :: rest) s).1 = (deleteOrphans ns rest s2).1 := by
        simp [deleteOrphans, hd]
      rw [h1, ih s2, hs2]
      dsimp only
      rw [List.filter_filter]
      apply List.filter_congr
      intro sj hm
      simp only [← decide_not, ← Bool.decide_and, List.mem_cons]
      rw [decide_eq_decide]
      by_cases hn : sj.job.meta.name = n
      · have hln : s.deleteFaults.lookup sj.job.meta.name = none := by rw [hn]; exact hl
        constructor
        · rintro ⟨hA, hB⟩ ⟨hor, _, hnsm⟩
          exact hB ⟨hn, hnsm⟩
        · intro hC
          constructor
          · rintro ⟨hr, hlk, hnsm⟩
            exact hC ⟨Or.inr hr, hlk, hnsm⟩
          · rintro ⟨_, hnsm⟩
            exact hC ⟨Or.inl hn, hln, hnsm⟩
      · constructor
        · rintro ⟨hA, hB⟩ ⟨hor, hlk, hnsm⟩
          rcases hor with h | h
          · exact hn h
          · exact hA ⟨h, hlk, hnsm⟩
        · intro hC
          constructor
          · rintro ⟨hr, hlk, hnsm⟩
            exact hC ⟨Or.inr hr, hlk, hnsm⟩
          · rintro ⟨he, _⟩
            exact hn he
    | error e =>
      have h1 : (deleteOrphans ns (n :: rest) s).1 = (deleteOrphans ns rest s).1 := by
        simp only [deleteOrphans, hd]
        split <;> rfl
      rw [h1, ih s]
      apply List.filter_congr
      intro sj hm
      rw [decide_eq_decide]
      rcases deleteJob_error_spec s n ns e hd with hl | ⟨hl, he, hfj⟩
      · by_cases hn : sj.job.meta.name = n
        · have hln : ¬(s.deleteFaults.lookup sj.job.meta.name = none) := by
            rw [hn, hl]; simp
          constructor
          · intro _ ⟨_, hlk, _⟩
            exact hln hlk
          · intro hC ⟨hr, hlk, hnsm⟩
            exact hln hlk
        · constructor
          · intro hA ⟨hor, hlk, hnsm⟩
            rcases List.mem_cons.mp hor with h | h
            · exact hn h
            · exact hA ⟨h, hlk, hnsm⟩
          · intro hC ⟨hr, hlk, hnsm⟩
            exact hC ⟨List.mem_cons_of_mem _ hr, hlk, hnsm⟩
      · have hnomatch : ¬(sj.job.meta.name = n ∧ sj.job.meta.ns = ns) := by
          unfold Store.findJob at hfj
          have := List.find?_eq_none.mp hfj sj hm
          simpa using this
        constructor
        · intro hA ⟨hor, hlk, hnsm⟩
          rcases List.mem_cons.mp hor with h | h
          · exact hnomatch ⟨h, hnsm⟩
          · exact hA ⟨h, hlk, hnsm⟩
        · intro hC ⟨hr, hlk, hnsm⟩
          exact hC ⟨List.mem_cons_of_mem _ hr, hlk, hnsm⟩

/-- An orphan with no injected delete fault is gone after the deletion loop. -/
theorem deleteOrphans_deleted (ns : String) (names : List String) (s : Store) (n : String)
    (hn : n ∈ names) (hl : s.deleteFaults.lookup n = none) :
    (deleteOrphans ns names s).1.findJob n ns = none := by
  unfold Store.findJob
  rw [show (deleteOrphans ns names s).1.jobs = _ from deleteOrphans_jobs ns names s]
  rw [List.find?_eq_none]
  intro sj hmem hP
  have hp := (List.mem_filter.mp hmem).2
  rw [decide_eq_true_eq] at hp
  have hP2 := of_decide_eq_true hP
  refine hp ⟨?_, ?_, hP2.2⟩
  · rw [hP2.1]; exact hn
  · rw [hP2.1]; exact hl

/-- A stored job whose name is not an orphan survives the deletion loop. -/
theorem deleteOrphans_preserved (ns : String) (names : List String) (s : Store)
    (sj : StoredJob) (hm : sj ∈ s.jobs) (hn : sj.job.meta.name ∉ names) :
    sj ∈ (deleteOrphans ns names s).1.jobs := by
  rw [deleteOrphans_jobs]
  exact List.mem_filter.mpr ⟨hm, decide_eq_true (fun hcon => hn hcon.1)⟩

theorem mem_insertName (acc : List String) (x n : String) :
    n ∈ insertName acc x ↔ n ∈ acc ∨ n = x := by
  unfold insertName
  split
  next hc =>
    constructor
    · exact Or.inl
    · rintro (h | rfl)
      · exact h
      · simpa using hc
  next hc => simp [List.mem_append]

theorem mem_foldl_insertName :
    ∀ (l : List CronJob) (acc : List String),
      (∀ x ∈ acc, x ∈ l.foldl (fun a c => insertName a c.meta.name) acc)
      ∧ (∀ c ∈ l, c.meta.name ∈ l.foldl (fun a c => insertName a c.meta.name) acc) := by
  intro l
  induction l with
  | nil => intro acc; exact ⟨fun x hx => hx, fun c hc => absurd hc (List.not_mem_nil c)⟩
  | cons c t ih =>
    intro acc
    constructor
    · intro x hx
      exact (ih (insertName acc c.meta.name)).1 x ((mem_insertName acc c.meta.name x).mpr (Or.inl hx))
    · intro c2 hc2
      rcases List.mem_cons.mp hc2 with rfl | h
      · exact (ih (insertName acc c2.meta.name)).1 c2.meta.name
          ((mem_insertName acc c2.meta.name c2.meta.name).mpr (Or.inr rfl))
      · exact (ih (insertName acc c.meta.name)).2 c2 h

/-- Every listed job's name is in the existing-name set. -/
theorem mem_existingNames (s : Store) (ns : String) :
    ∀ c ∈ s.listJobs ns imLabels, c.meta.name ∈ existingNames s ns := by
  intro c hc
  exact (mem_foldl_insertName (s.listJobs ns imLabels) []).2 c hc

theorem mem_expectedStep (cluster : Elasticsearch) (policies : PolicyMap)
    (acc : List String) (m : IndexManagementPolicyMappingSpec) (n : String) :
    n ∈ expectedStep cluster policies acc m ↔
      n ∈ acc
      ∨ ((policies.lookupOrZero m.policyRef).phases.hot.isSome
          ∧ n = cluster.name ++ "-rollover-" ++ m.name)
      ∨ ((policies.lookupOrZero m.policyRef).phases.delete.isSome
          ∧ n = cluster.name ++ "-delete-" ++ m.name) := by
  unfold expectedStep
  cases hh : (policies.lookupOrZero m.policyRef).phases.hot <;>
    cases hdp : (policies.lookupOrZero m.policyRef).phases.delete <;>
      simp [mem_insertName, hh, hdp, or_assoc]

theorem mem_expectedNames_aux (cluster : Elasticsearch) (policies : PolicyMap) :
    ∀ (mappings : List IndexManagementPolicyMappingSpec) (acc : List String) (n : String),
      n ∈ mappings.foldl (expectedStep cluster policies) acc ↔
        n ∈ acc ∨ ∃ m ∈ mappings,
          ((policies.lookupOrZero m.policyRef).phases.hot.isSome
            ∧ n = cluster.name ++ "-rollover-" ++ m.name)
          ∨ ((policies.lookupOrZero m.policyRef).phases.delete.isSome
            ∧ n = cluster.name ++ "-delete-" ++ m.name) := by
  intro mappings
  induction mappings with
  | nil => intro acc n; simp
  | cons m rest ih =>
    intro acc n
    rw [List.foldl_cons, ih, mem_expectedStep]
    simp only [List.mem_cons]
    constructor
    · rintro ((h | h | h) | ⟨m2, hm2, h⟩)
      · exact Or.inl h
      · exact Or.inr ⟨m, Or.inl rfl, Or.inl h⟩
      · exact Or.inr ⟨m, Or.inl rfl, Or.inr h⟩
      · exact Or.inr ⟨m2, Or.inr hm2, h⟩
    · rintro (h | ⟨m2, hm2, h⟩)
      · exact Or.inl (Or.inl h)
      · rcases hm2 with rfl | hm2
        · rcases h with h | h
          · exact Or.inl (Or.inr (Or.inl h))
          · exact Or.inl (Or.inr (Or.inr h))
        · exact Or.inr ⟨m2, hm2, h⟩

/-- Membership in the expected-name set: the rollover name of a mapping is
expected iff its policy has a Hot phase, the delete name iff a Delete phase. -/
theorem mem_expectedNames (cluster : Elasticsearch)
    (mappings : List IndexManagementPolicyMappingSpec) (policies : PolicyMap) (n : String) :
    n ∈ expectedNames cluster mappings policies ↔
      ∃ m ∈ mappings,
        ((policies.lookupOrZero m.policyRef).phases.hot.isSome
          ∧ n = cluster.name ++ "-rollover-" ++ m.name)
        ∨ ((policies.lookupOrZero m.policyRef).phases.delete.isSome
          ∧ n = cluster.name ++ "-delete-" ++ m.name) := by
  unfold expectedNames
  rw [mem_expectedNames_aux]
  simp

/-- A mapping whose policy reference misses the policy map contributes
nothing to the expected-name accumulator: the Go zero-valued policy has
neither phase. -/
theorem expectedStep_dangling (cluster : Elasticsearch) (policies : PolicyMap)
    (m : IndexManagementPolicyMappingSpec) (acc : List String)
    (hl : (policies : List (String × IndexManagementPolicySpec)).lookup m.policyRef = none) :
    expectedStep cluster policies acc m = acc := by
  unfold expectedStep PolicyMap.lookupOrZero
  rw [hl]
  rfl

theorem RemoveCronJobs_eq (s : Store) (cluster : Elasticsearch)
    (mappings : List IndexManagementPolicyMappingSpec) (policies : PolicyMap)
    (hlf : s.listFault = none) :
    RemoveCronJobsForMappings s cluster mappings policies =
      (.ok (),
       (deleteOrphans cluster.ns (orphanNames s cluster mappings policies) s).1,
       Op.list :: (deleteOrphans cluster.ns (orphanNames s cluster mappings policies) s).2.1,
       (deleteOrphans cluster.ns (orphanNames s cluster mappings policies) s).2.2) := by
  unfold RemoveCronJobsForMappings
  rw [hlf]

/-- Claim C5: orphan collection deletes exactly the existing derived objects
whose names are outside the expected set, never an expected one, where the
expected set contains the rollover name iff the mapping's policy has a Hot
phase and the delete name iff it has a Delete phase. -/
theorem claimC5 (s : Store) (cluster : Elasticsearch)
    (mappings : List IndexManagementPolicyMappingSpec) (policies : PolicyMap)
    (hlf : s.listFault = none) (hdf : s.deleteFaults = []) :
    (RemoveCronJobsForMappings s cluster mappings policies).1 = .ok ()
    ∧ (RemoveCronJobsForMappings s cluster mappings policies).2.2.1 =
        Op.list :: (orphanNames s cluster mappings policies).map Op.delete
    ∧ (∀ n ∈ orphanNames s cluster mappings policies,
        (RemoveCronJobsForMappings s cluster mappings policies).2.1.findJob n cluster.ns = none)
    ∧ (∀ sj ∈ s.jobs, sj.job.meta.name ∈ expectedNames cluster mappings policies →
        sj ∈ (RemoveCronJobsForMappings s cluster mappings policies).2.1.jobs)
    ∧ (∀ n, n ∈ expectedNames cluster mappings policies ↔
        ∃ m ∈ mappings,
          ((policies.lookupOrZero m.policyRef).phases.hot.isSome
            ∧ n = cluster.name ++ "-rollover-" ++ m.name)
          ∨ ((policies.lookupOrZero m.policyRef).phases.delete.isSome
            ∧ n = cluster.name ++ "-delete-" ++ m.name)) := by
  rw [RemoveCronJobs_eq s cluster mappings policies hlf]
  refine ⟨rfl, ?_, ?_, ?_, ?_⟩
  · rw [deleteOrphans_trace]
  · intro n hn
    exact deleteOrphans_deleted cluster.ns _ s n hn (by rw [hdf]; rfl)
  · intro sj hm hexp
    apply deleteOrphans_preserved _ _ _ _ hm
    intro hor
    unfold orphanNames at hor
    have hne := (List.mem_filter.mp hor).2
    simp only [Bool.not_eq_true'] at hne
    have h2 : (expectedNames cluster mappings policies).contains sj.job.meta.name = true :=
      List.elem_eq_true_of_mem hexp
    rw [h2] at hne
    cases hne
  · intro n
    exact mem_expectedNames cluster mappings policies n

/-- Witness for claim C5: with existing derived names rollover-X, delete-X and
rollover-Y and the mapping X bound to a hot-only policy, exactly delete-X and
rollover-Y are deleted and rollover-X is left untouched. -/
theorem claimC5_witness :
    (RemoveCronJobsForMappings exStoreGC exCluster [exMappingX] exPoliciesHot).1 = .ok ()
    ∧ (RemoveCronJobsForMappings exStoreGC exCluster [exMappingX] exPoliciesHot).2.2.1 =
        [Op.list, Op.delete "elasticsearch-delete-X", Op.delete "elasticsearch-rollover-Y"]
    ∧ (RemoveCronJobsForMappings exStoreGC exCluster [exMappingX] exPoliciesHot).2.1.findJob
        "elasticsearch-delete-X" exCluster.ns = none
    ∧ (RemoveCronJobsForMappings exStoreGC exCluster [exMappingX] exPoliciesHot).2.1.findJob
        "elasticsearch-rollover-Y" exCluster.ns = none
    ∧ (⟨0, exJobNamed "elasticsearch-rollover-X"⟩ : StoredJob) ∈
        (RemoveCronJobsForMappings exStoreGC exCluster [exMappingX] exPoliciesHot).2.1.jobs := by
  obtain ⟨h1, h2, h3, h4, _⟩ := claimC5 exStoreGC exCluster [exMappingX] exPoliciesHot rfl rfl
  refine ⟨h1, ?_, ?_, ?_, ?_⟩
  · rw [h2]; rfl
  · exact h3 _ (by decide)
  · exact h3 _ (by decide)
  · exact h4 _ (by decide) (by decide)

/-- Claim C6: during orphan deletion a notFound failure counts as success; any
other failure is logged and the loop continues for the remaining orphans, and
the cleanup entry point still returns success. -/
theorem claimC6 (s : Store) (cluster : Elasticsearch)
    (mappings : List IndexManagementPolicyMappingSpec) (policies : PolicyMap)
    (hlf : s.listFault = none) :
    (RemoveCronJobsForMappings s cluster mappings policies).1 = .ok ()
    ∧ (RemoveCronJobsForMappings s cluster mappings policies).2.2.1 =
        Op.list :: (orphanNames s cluster mappings policies).map Op.delete
    ∧ (RemoveCronJobsForMappings s cluster mappings policies).2.2.2 =
        (orphanNames s cluster mappings policies).filter (loggedFault s.deleteFaults)
    ∧ (∀ n ∈ orphanNames s cluster mappings policies,
        s.deleteFaults.lookup n = none →
        (RemoveCronJobsForMappings s cluster mappings policies).2.1.findJob n cluster.ns
          = none) := by
  rw [RemoveCronJobs_eq s cluster mappings policies hlf]
  refine ⟨rfl, ?_, ?_, ?_⟩
  · rw [deleteOrphans_trace]
  · rw [deleteOrphans_errs]
  · intro n hn hl
    exact deleteOrphans_deleted cluster.ns _ s n hn hl

/-- Witness for claim C6: with a loggable fault on delete-X and a notFound
fault on rollover-Y, the pass still attempts all three orphans in order, logs
only delete-X, deletes the un-faulted rollover-X after the failure, and
returns success. -/
theorem claimC6_witness :
    (RemoveCronJobsForMappings exStoreGCFault exCluster [] exPoliciesHot).1 = .ok ()
    ∧ (RemoveCronJobsForMappings exStoreGCFault exCluster [] exPoliciesHot).2.2.1 =
        [Op.list, Op.delete "elasticsearch-delete-X", Op.delete "elasticsearch-rollover-X",
         Op.delete "elasticsearch-rollover-Y"]
    ∧ (RemoveCronJobsForMappings exStoreGCFault exCluster [] exPoliciesHot).2.2.2 =
        ["elasticsearch-delete-X"]
    ∧ (RemoveCronJobsForMappings exStoreGCFault exCluster [] exPoliciesHot).2.1.findJob
        "elasticsearch-rollover-X" exCluster.ns = none := by
  obtain ⟨h1, h2, h3, h4⟩ := claimC6 exStoreGCFault exCluster [] exPoliciesHot rfl
  refine ⟨h1, ?_, ?_, ?_⟩
  · rw [h2]; rfl
  · rw [h3]; rfl
  · exact h4 _ (by decide) (by decide)

/-- Claim C10: a mapping whose policy reference is not a key of the policy map
silently gets the zero-valued policy with no phases, contributes no expected
names, its existing derived objects are deleted as orphans, and the dangling
reference is never reported as an error. -/
theorem claimC10 :
    (∀ (cluster : Elasticsearch) (policies : PolicyMap)
       (m : IndexManagementPolicyMappingSpec) (acc : List String),
       (policies : List (String × IndexManagementPolicySpec)).lookup m.policyRef = none →
       expectedStep cluster policies acc m = acc)
    ∧ (∀ (s : Store) (cluster : Elasticsearch)
         (mappings : List IndexManagementPolicyMappingSpec) (policies : PolicyMap),
       s.listFault = none →
       (RemoveCronJobsForMappings s cluster mappings policies).1 = .ok ())
    ∧ (∀ (s : Store) (cluster : Elasticsearch)
         (m : IndexManagementPolicyMappingSpec) (policies : PolicyMap),
       s.listFault = none → s.deleteFaults = [] →
       (policies : List (String × IndexManagementPolicySpec)).lookup m.policyRef = none →
       ∀ c ∈ s.listJobs cluster.ns imLabels,
         (RemoveCronJobsForMappings s cluster [m] policies).2.1.findJob
           c.meta.name cluster.ns = none) := by
  refine ⟨expectedStep_dangling, ?_, ?_⟩
  · intro s cluster mappings policies hlf
    rw [RemoveCronJobs_eq s cluster mappings policies hlf]
  · intro s cluster m policies hlf hdf hl c hc
    have hexp : expectedNames cluster [m] policies = [] := by
      unfold expectedNames
      rw [List.foldl_cons, expectedStep_dangling cluster policies m [] hl]
      rfl
    have horph : orphanNames s cluster [m] policies = existingNames s cluster.ns := by
      unfold orphanNames
      rw [hexp]
      simp
    rw [RemoveCronJobs_eq s cluster [m] policies hlf]
    apply deleteOrphans_deleted cluster.ns _ s c.meta.name
    · rw [horph]
      exact mem_existingNames s cluster.ns c hc
    · rw [hdf]; rfl

/-- Witness for claim C10: with the only mapping's reference missing from the
policy map, its step leaves the accumulator unchanged, the pass returns
success, and the listed job named for the mapping is deleted as an orphan. -/
theorem claimC10_witness :
    expectedStep exCluster exPoliciesHot ["a"] exMappingDangling = ["a"]
    ∧ (RemoveCronJobsForMappings exStoreGC exCluster [exMappingDangling] exPoliciesHot).1
        = .ok ()
    ∧ (RemoveCronJobsForMappings exStoreGC exCluster [exMappingDangling]
        exPoliciesHot).2.1.findJob "elasticsearch-rollover-X" exCluster.ns = none := by
  refine ⟨claimC10.1 exCluster exPoliciesHot exMappingDangling ["a"] (by decide),
          claimC10.2.1 exStoreGC exCluster [exMappingDangling] exPoliciesHot rfl, ?_⟩
  exact claimC10.2.2 exStoreGC exCluster exMappingDangling exPoliciesHot rfl rfl (by decide)
    (exJobNamed "elasticsearch-rollover-X") (by decide)

end IndexManagement
